import Mathlib

/-!
# Multithreaded-httpserver: bounded queue and request handlers

A shallow embedding of `src/queue.c` (the ring-buffer queue shared by the acceptor and the
workers) and of the request handlers of `src/httpserver.c`.

* The queue is a record of the four `int` fields and the buffer.  `queue_push` and `queue_pop`
  run their critical section (the code between `pthread_mutex_lock` and `pthread_mutex_unlock`)
  as one atomic step; a call whose wait loop cannot be left is reported as `Outcome.blocks`.
* A handler is a function from the outcomes of the calls it makes to the operating system and
  to the protocol library (`Env`) to the list of effects it performs, in program order.
-/

namespace HttpServer

/-! ## `src/queue.c` -/

/-- What a call does when it is run with no other thread touching the queue. -/
inductive Outcome (β : Type) where
  /-- The call returns. -/
  | ret (v : β)
  /-- The call stays in its `pthread_cond_wait` loop: its guard holds and nothing changes it. -/
  | blocks
  /-- The call does something C leaves undefined (store outside the buffer, `% 0`). -/
  | undefined
  deriving DecidableEq, Repr

/-- The fields of `struct queue` (`lock` and `condition` are represented by the atomicity of the
steps).  A buffer cell holds `none` until something is stored in it: `malloc` does not
initialise memory.  The `int` fields are integers: in every reachable state they lie between 0
and `size`, which is at most `INT_MAX`, so no operation on them overflows. -/
structure queue_t (α : Type) where
  in_ : Int
  out : Int
  size : Int
  count : Int
  buffer : List (Option α)
  deriving DecidableEq, Repr

/-- The allocator: `malloc n` tells whether `malloc(n)` returns a non-NULL pointer. -/
structure Heap where
  malloc : Nat → Bool

/-- Largest value of `int`. -/
def INT_MAX : Int := 2147483647

/-- Smallest value of `int`. -/
def INT_MIN : Int := -2147483648

/-- Largest value of `ptrdiff_t` on an LP64 target: no object can be larger. -/
def PTRDIFF_MAX : Nat := 2 ^ 63 - 1

/-- The modulus `SIZE_MAX + 1` of a 64-bit `size_t`. -/
def SIZE_MOD : Nat := 2 ^ 64

/-- The value of `sizeof(void *)` on an LP64 target. -/
def sizeof_ptr : Nat := 8

/-- The value of `sizeof(queue_t)` on an LP64 glibc target (four `int`, one pointer, mutex, condition). -/
def sizeof_queue_t : Nat := 112

/-- The argument of the second `malloc` of `queue_new`: `sizeof(void *) * size`, where `size`
is converted to `size_t` and the product is taken modulo `SIZE_MAX + 1`. -/
def buffer_bytes (size : Int) : Nat :=
  (sizeof_ptr * (size % (SIZE_MOD : Int)).toNat) % SIZE_MOD

/-- The function `queue_new(size)`.  The result `none` is the abort of a failed `assert`. -/
def queue_new {α : Type} (h : Heap) (size : Int) : Option (queue_t α) :=
  if h.malloc sizeof_queue_t = false then none
  else if h.malloc (buffer_bytes size) = false then none
  else some
    { in_ := 0
      out := 0
      size := size
      count := 0
      buffer := List.replicate (buffer_bytes size / sizeof_ptr) none }

/-- The function `queue_push(q, elem)` on a non-NULL `q` (the function dereferences `q` unguarded).
The value returned is the new state of `*q` and `result`. -/
def queue_push {α : Type} (q : queue_t α) (elem : α) : Outcome (queue_t α × Bool) :=
  if q.count ≥ q.size then .blocks
  else if q.in_ < 0 ∨ (q.buffer.length : Int) ≤ q.in_ then .undefined
  else if q.size = 0 then .undefined
  else .ret
    ({ q with
        buffer := q.buffer.set q.in_.toNat (some elem)
        in_ := Int.tmod (q.in_ + 1) q.size
        count := q.count + 1 }, true)

/-- The function `queue_pop(q, elem)`.  Here `q = none` is a NULL queue pointer and `elem = false` a NULL `elem`.
The value returned is `result` and, when the guarded block ran, the new state of `*q` with the
value stored in `*elem`; when the guard fails nothing is changed and nothing is stored. -/
def queue_pop {α : Type} (q : Option (queue_t α)) (elem : Bool) :
    Outcome (Bool × Option (queue_t α × Option α)) :=
  match q, elem with
  | some q, true =>
    if q.count ≤ 0 then .blocks
    else if q.out < 0 ∨ (q.buffer.length : Int) ≤ q.out then .undefined
    else if q.size = 0 then .undefined
    else .ret (true, some
      ({ q with
          out := Int.tmod (q.out + 1) q.size
          count := q.count - 1 }, q.buffer.getD q.out.toNat none))
  | _, _ => .ret (false, none)

/-- One call of a sequential client of the queue: a push of `elem`, or a pop through a valid
(non-NULL) `elem` pointer. -/
inductive Op (α : Type) where
  | push (elem : α)
  | pop
  deriving DecidableEq, Repr

/-- What a sequential run of calls produced: the final queue, the value returned by each call
and the value each pop stored in `*elem`, both in call order. -/
structure Run (α : Type) where
  q : queue_t α
  rets : List Bool
  outs : List (Option α)
  deriving DecidableEq, Repr

/-- Runs the calls of `ops` one after the other on `q`.  A call that does not return ends the
run with its outcome. -/
def run {α : Type} (q : queue_t α) : List (Op α) → Outcome (Run α)
  | [] => .ret { q := q, rets := [], outs := [] }
  | .push x :: ops =>
    match queue_push q x with
    | .ret (q1, r) =>
      match run q1 ops with
      | .ret t => .ret { t with rets := r :: t.rets }
      | .blocks => .blocks
      | .undefined => .undefined
    | .blocks => .blocks
    | .undefined => .undefined
  | .pop :: ops =>
    match queue_pop (some q) true with
    | .ret (r, some (q1, v)) =>
      match run q1 ops with
      | .ret t => .ret { t with rets := r :: t.rets, outs := v :: t.outs }
      | .blocks => .blocks
      | .undefined => .undefined
    | .ret (r, none) =>
      match run q ops with
      | .ret t => .ret { t with rets := r :: t.rets }
      | .blocks => .blocks
      | .undefined => .undefined
    | .blocks => .blocks
    | .undefined => .undefined

/-- The condition on a call sequence under which no call blocks on a queue of capacity `C`
that holds `n` elements: every push is issued while fewer than `C` elements are held and every
pop while at least one is held, the number held being the pushes minus the pops issued so far.
The condition reads the call sequence only, never the queue the code produces. -/
def noBlock {α : Type} (C : Int) : Nat → List (Op α) → Bool
  | _, [] => true
  | n, .push _ :: ops => decide ((n : Int) < C) && noBlock C (n + 1) ops
  | n, .pop :: ops => decide (0 < n) && noBlock C (n - 1) ops

/-- The elements pushed by `ops`, in call order. -/
def pushed {α : Type} : List (Op α) → List α
  | [] => []
  | .push x :: ops => x :: pushed ops
  | .pop :: ops => pushed ops

/-- The number of pops in `ops`. -/
def pops {α : Type} : List (Op α) → Nat
  | [] => 0
  | .push _ :: ops => pops ops
  | .pop :: ops => pops ops + 1

/-- The queue states reachable from `queue_new(C)` by completed pushes and pops. -/
inductive Reachable {α : Type} (C : Int) : queue_t α → Prop where
  | new (h : Heap) (q : queue_t α) : queue_new h C = some q → Reachable C q
  | push (q q1 : queue_t α) (x : α) (r : Bool) :
      Reachable C q → queue_push q x = .ret (q1, r) → Reachable C q1
  | pop (q q1 : queue_t α) (elem : Bool) (r : Bool) (v : Option α) :
      Reachable C q → queue_pop (some q) elem = .ret (r, some (q1, v)) → Reachable C q1

/-- A heap on which every allocation succeeds. -/
def plentiful : Heap := { malloc := fun _ => true }

/-- A heap on which an allocation succeeds exactly when the request is at most `PTRDIFF_MAX`
bytes; `malloc(0)` returns a non-NULL pointer on it. -/
def bounded : Heap := { malloc := fun n => decide (n ≤ PTRDIFF_MAX) }

/-! ### The ring-buffer invariant -/

/-- The representation invariant of a queue of capacity `C` holding `held`, oldest first. -/
def Inv {α : Type} (C : Int) (q : queue_t α) (held : List α) : Prop :=
  ∃ n o : Nat, 1 ≤ n ∧ C = n ∧ q.size = n ∧ q.buffer.length = n ∧ q.out = o ∧ o < n ∧
    q.count = held.length ∧ held.length ≤ n ∧ q.in_ = ((o + held.length) % n : Nat) ∧
    ∀ i (hi : i < held.length), q.buffer[(o + i) % n]? = some (some held[i])


/-- The queue `queue_new(2)` returns: two cells, nothing stored. -/
def q2 : queue_t Nat := { in_ := 0, out := 0, size := 2, count := 0, buffer := [none, none] }

/-- The queue `q2` after a push of 5. -/
def q2_5 : queue_t Nat := { in_ := 1, out := 0, size := 2, count := 1, buffer := [some 5, none] }

/-- A sample sequence of calls in which no call blocks on a queue of capacity 2. -/
def ops6 : List (Op Nat) := [.push 5, .push 6, .pop, .push 7, .pop, .pop]

/-! ## `src/httpserver.c` -/

/-- The three global mutexes of `httpserver.c`. -/
inductive Mutex where
  | qlock
  | audit
  | plock
  deriving DecidableEq, Repr

/-- Modelled from the spec: `response.h` is not part of the sources; the spec gives the fixed
catalog "OK, CREATED, FORBIDDEN, NOT_FOUND, INTERNAL_SERVER_ERROR, NOT_IMPLEMENTED,
BAD_REQUEST, ...".  A value stands for the address of one catalog entry; `RESPONSE_OTHER`
covers the entries the spec does not name. -/
inductive Response_t where
  | RESPONSE_OK
  | RESPONSE_CREATED
  | RESPONSE_FORBIDDEN
  | RESPONSE_NOT_FOUND
  | RESPONSE_INTERNAL_SERVER_ERROR
  | RESPONSE_NOT_IMPLEMENTED
  | RESPONSE_BAD_REQUEST
  | RESPONSE_OTHER (n : Nat)
  deriving DecidableEq, Repr

/-- Modelled from the spec: `request.h` is not part of the sources; the spec gives "a parsed
method token (GET / PUT / other)".  A value stands for the address of a request object, which
`handle_connection` compares with `&REQUEST_GET` and `&REQUEST_PUT`. -/
inductive Request_t where
  | REQUEST_GET
  | REQUEST_PUT
  | REQUEST_OTHER (n : Nat)
  deriving DecidableEq, Repr

open Response_t Request_t

/-- Values of `errno` from `<errno.h>` (Linux). -/
def EACCES : Int := 13

def ENOENT : Int := 2

def EISDIR : Int := 21

/-- Flags of `<fcntl.h>` (Linux). -/
def O_RDONLY : Nat := 0

def O_WRONLY : Nat := 1

def O_CREAT : Nat := 0o100

/-- Operations of `flock` in `<sys/file.h>`. -/
def LOCK_SH : Nat := 1

def LOCK_EX : Nat := 2

/-- Mode of `access` in `<unistd.h>`. -/
def F_OK : Nat := 0

/-- The macro `S_ISDIR` of `<sys/stat.h>`: `(mode & S_IFMT) == S_IFDIR`. -/
def S_ISDIR (st_mode : Nat) : Bool := (st_mode &&& 0o170000) == 0o040000

/-- The outcome of every call one request makes to the protocol library and to the operating
system.  A handler makes each of these calls at most once, so one value per call describes a
whole execution.  A `const Response_t *` result is `none` when the call returns NULL. -/
structure Env where
  /-- The result of `conn_get_uri(conn)`. -/
  uri : String
  /-- The result of `conn_get_header(conn, "Request-Id")`, `none` for NULL. -/
  request_id : Option String
  /-- The function `request_get_str`. -/
  request_get_str : Request_t → String
  /-- The function `response_get_code`. -/
  response_get_code : Response_t → Nat
  /-- The result of `conn_parse(conn)`. -/
  conn_parse : Option Response_t
  /-- The result of `conn_get_request(conn)`. -/
  conn_get_request : Request_t
  /-- The value returned by `access(uri, F_OK)`. -/
  access : Int
  /-- The value returned by `open`: the descriptor, negative on failure. -/
  fd : Int
  /-- The value of `errno` after `open`. -/
  errno : Int
  /-- The value returned by `fstat`. -/
  fstat : Int
  /-- The field `st.st_size` converted to `uint64_t`. -/
  st_size : Nat
  /-- The field `st.st_mode`. -/
  st_mode : Nat
  /-- The result of `conn_send_file(conn, fd, size)`. -/
  conn_send_file : Option Response_t
  /-- The result of `conn_recv_file(conn, fd)`. -/
  conn_recv_file : Option Response_t

/-- The effects of the handlers, one constructor per call that acts on the connection, on a
file, on a mutex or on the log.  Calls that only read the parsed request (`conn_get_uri`,
`conn_get_header`, `conn_get_request`, `request_get_str`, `response_get_code`) are not
recorded.  `conn_send_file` and `conn_recv_file` carry the value they returned. -/
inductive Event where
  | conn_new (connfd : Int)
  | conn_parse
  | conn_delete
  | pthread_mutex_lock (m : Mutex)
  | pthread_mutex_unlock (m : Mutex)
  | access (uri : String) (mode : Nat)
  | open_ (uri : String) (flags : Nat) (mode : Nat)
  | flock (fd : Int) (operation : Nat)
  | fstat (fd : Int)
  | ftruncate (fd : Int) (length : Nat)
  | conn_send_file (fd : Int) (size : Nat) (res : Option Response_t)
  | conn_recv_file (fd : Int) (res : Option Response_t)
  | conn_send_response (res : Response_t)
  | close (fd : Int)
  | fprintf_stderr (line : String)
  deriving DecidableEq, Repr

/-- The function `audit_log(method, conn, res)`. -/
def audit_log (env : Env) (method : String) (res : Response_t) : List Event :=
  let uri := env.uri
  let request_id :=
    match env.request_id with
    | none => "0"
    | some s => s
  let status_code := env.response_get_code res
  [ .pthread_mutex_lock .audit,
    .fprintf_stderr (method ++ "," ++ uri ++ "," ++ toString status_code ++ "," ++ request_id ++ "\n"),
    .pthread_mutex_unlock .audit ]

/-- The code of `handle_get` from the label `out_get` on. -/
def out_get (env : Env) (res : Response_t) : List Event :=
  audit_log env "GET" res ++ [.conn_send_response res, .close env.fd]

/-- The function `handle_get(conn)`. -/
def handle_get (env : Env) : List Event :=
  let uri := env.uri
  let fd := env.fd
  [.pthread_mutex_lock .qlock, .open_ uri O_RDONLY 0o666] ++
  if fd < 0 then
    let res :=
      if env.errno = EACCES then RESPONSE_FORBIDDEN
      else if env.errno = ENOENT then RESPONSE_NOT_FOUND
      else RESPONSE_INTERNAL_SERVER_ERROR
    [.pthread_mutex_unlock .qlock] ++ out_get env res
  else
    [.flock fd LOCK_SH, .pthread_mutex_unlock .qlock, .fstat fd] ++
    if env.fstat < 0 then out_get env RESPONSE_INTERNAL_SERVER_ERROR
    else
      let size := env.st_size
      if S_ISDIR env.st_mode then out_get env RESPONSE_FORBIDDEN
      else
        [.conn_send_file fd size env.conn_send_file] ++
        (match env.conn_send_file with
         | none => audit_log env "GET" RESPONSE_OK
         | some _ => []) ++
        [.close fd]

/-- The function `handle_unsupported(conn, req)`. -/
def handle_unsupported (env : Env) (req : Request_t) : List Event :=
  [.conn_send_response RESPONSE_NOT_IMPLEMENTED] ++
  let method := env.request_get_str req
  audit_log env method RESPONSE_NOT_IMPLEMENTED

/-- The code of `handle_put` from the label `out` on. -/
def out_put (env : Env) (res : Response_t) : List Event :=
  audit_log env "PUT" RESPONSE_OK ++ [.conn_send_response res, .close env.fd]

/-- The function `handle_put(conn)`.  After `conn_recv_file` the two tests on `res == NULL` leave `res`
non-NULL in every case. -/
def handle_put (env : Env) : List Event :=
  let uri := env.uri
  let existed : Bool := env.access == 0
  let fd := env.fd
  [.access uri F_OK, .pthread_mutex_lock .plock, .open_ uri (O_CREAT ||| O_WRONLY) 0o600] ++
  if fd < 0 then
    if env.errno = EACCES ∨ env.errno = EISDIR ∨ env.errno = ENOENT then
      [.pthread_mutex_unlock .plock] ++ out_put env RESPONSE_FORBIDDEN
    else
      [.pthread_mutex_unlock .plock] ++ out_put env RESPONSE_INTERNAL_SERVER_ERROR
  else
    [.flock fd LOCK_EX, .ftruncate fd 0, .pthread_mutex_unlock .plock,
      .conn_recv_file fd env.conn_recv_file] ++
    let res :=
      match env.conn_recv_file, existed with
      | none, true => RESPONSE_OK
      | none, false => RESPONSE_CREATED
      | some r, _ => r
    audit_log env "PUT" RESPONSE_OK ++ [.close fd, .conn_send_response res]

/-- The function `handle_connection(connfd)`. -/
def handle_connection (env : Env) (connfd : Int) : List Event :=
  [.conn_new connfd, .conn_parse] ++
  (match env.conn_parse with
   | some res => [.conn_send_response res]
   | none =>
     let req := env.conn_get_request
     if req = REQUEST_GET then handle_get env
     else if req = REQUEST_PUT then handle_put env
     else handle_unsupported env req) ++
  [.conn_delete]

/-! ### Observations on a trace -/

/-- The responses passed to `conn_send_response`, in order. -/
def responsesSent : List Event → List Response_t
  | [] => []
  | .conn_send_response res :: t => res :: responsesSent t
  | _ :: t => responsesSent t

/-- The lines written to the audit log, in order. -/
def auditLines : List Event → List String
  | [] => []
  | .fprintf_stderr line :: t => line :: auditLines t
  | _ :: t => auditLines t

/-- The number of responses delivered to the connection: the calls of `conn_send_response`
and the calls of `conn_send_file` that returned no error. -/
def delivered : List Event → Nat
  | [] => 0
  | .conn_send_response _ :: t => delivered t + 1
  | .conn_send_file _ _ none :: t => delivered t + 1
  | _ :: t => delivered t

/-- Whether an effect is an operation on a file or on a file descriptor. -/
def isFileOp : Event → Bool
  | .access _ _ => true
  | .open_ _ _ _ => true
  | .flock _ _ => true
  | .fstat _ => true
  | .ftruncate _ _ => true
  | .conn_send_file _ _ _ => true
  | .conn_recv_file _ _ => true
  | .close _ => true
  | _ => false

/-- Whether an effect is a call of `conn_send_response`. -/
def isResponse : Event → Bool
  | .conn_send_response _ => true
  | _ => false

/-- Whether an effect belongs to the open-and-lock protocol of `handle_put`: the PUT mutex, the
open, the truncation, the advisory lock, and the transfer of the body into the file. -/
def isPutSync : Event → Bool
  | .pthread_mutex_lock .plock => true
  | .pthread_mutex_unlock .plock => true
  | .open_ _ _ _ => true
  | .flock _ _ => true
  | .ftruncate _ _ => true
  | .conn_recv_file _ _ => true
  | _ => false

/-- The audit line of the spec, `METHOD,URI,STATUS,REQUEST_ID\n`. -/
def audit_line (method uri : String) (status : Nat) (request_id : String) : String :=
  method ++ "," ++ uri ++ "," ++ toString status ++ "," ++ request_id ++ "\n"

/-- The order of the open-and-lock protocol as the spec words it: acquire the PUT mutex, open,
truncate, take the exclusive lock, release the mutex, then receive the body. -/
def spec_put_order (uri : String) (fd : Int) (r : Option Response_t) : List Event :=
  [ .pthread_mutex_lock .plock, .open_ uri (O_CREAT ||| O_WRONLY) 0o600, .ftruncate fd 0,
    .flock fd LOCK_EX, .pthread_mutex_unlock .plock, .conn_recv_file fd r ]

/-- The numeric codes of the catalog entries, as HTTP assigns them. -/
def http_code : Response_t → Nat
  | RESPONSE_OK => 200
  | RESPONSE_CREATED => 201
  | RESPONSE_FORBIDDEN => 403
  | RESPONSE_NOT_FOUND => 404
  | RESPONSE_INTERNAL_SERVER_ERROR => 500
  | RESPONSE_NOT_IMPLEMENTED => 501
  | RESPONSE_BAD_REQUEST => 400
  | RESPONSE_OTHER n => n

/-- The method strings of the request objects. -/
def method_str : Request_t → String
  | REQUEST_GET => "GET"
  | REQUEST_PUT => "PUT"
  | REQUEST_OTHER _ => "DELETE"

/-- A sample execution: a request for `/a.txt` without a `Request-Id` header, on which `open`
returns descriptor 4, `fstat` succeeds on a regular file of 5 bytes, and both transfers
succeed.  The examples below vary single fields of it. -/
def env0 : Env :=
  { uri := "/a.txt"
    request_id := none
    request_get_str := method_str
    response_get_code := http_code
    conn_parse := none
    conn_get_request := REQUEST_GET
    access := -1
    fd := 4
    errno := 0
    fstat := 0
    st_size := 5
    st_mode := 0o100644
    conn_send_file := none
    conn_recv_file := none }

/-! ## Theorems -/

/-! ### The queue -/

theorem mod_shift_inj (o i j n : Nat) (hi : i < n) (hj : j < n)
    (h : (o + i) % n = (o + j) % n) : i = j := by
  have h1 : i ≡ j [MOD n] := Nat.ModEq.add_left_cancel' o h
  have h2 : i % n = j % n := h1
  rwa [Nat.mod_eq_of_lt hi, Nat.mod_eq_of_lt hj] at h2

theorem tmod_succ_cast (a n : Nat) :
    Int.tmod ((a : Int) + 1) (n : Int) = (((a + 1) % n : Nat) : Int) := by
  rw [Int.tmod_eq_emod (by omega) (by omega)]
  push_cast
  rfl

theorem buffer_cells (C : Int) (n : Nat) (hC : C = n) (hmax : C ≤ INT_MAX) :
    buffer_bytes C / sizeof_ptr = n := by
  subst hC
  simp only [buffer_bytes, sizeof_ptr, SIZE_MOD, INT_MAX] at *
  omega

theorem inv_new {α : Type} (h : Heap) (C : Int) (q : queue_t α) (h1 : 1 ≤ C)
    (hmax : C ≤ INT_MAX) (hq : queue_new h C = some q) : Inv C q [] := by
  obtain ⟨n, rfl⟩ : ∃ n : Nat, C = n := ⟨C.toNat, by omega⟩
  unfold queue_new at hq
  split at hq
  · cases hq
  · split at hq
    · cases hq
    · cases hq
      refine ⟨n, 0, by omega, rfl, rfl, ?_, rfl, by omega, rfl, by simp, ?_, ?_⟩
      · simp [buffer_cells (n : Int) n rfl hmax]
      · simp
      · intro i hi
        simp at hi


theorem inv_push {α : Type} (C : Int) (q : queue_t α) (held : List α) (x : α)
    (hinv : Inv C q held) (hc : q.count < C) :
    ∃ q1, queue_push q x = .ret (q1, true) ∧ Inv C q1 (held ++ [x]) := by
  obtain ⟨n, o, hn, hC, hsize, hlen, hout, ho, hcount, hle, hin, hbuf⟩ := hinv
  have hlt : held.length < n := by omega
  have hidx : (o + held.length) % n < n := Nat.mod_lt _ (by omega)
  refine ⟨{ q with
      buffer := q.buffer.set q.in_.toNat (some x)
      in_ := Int.tmod (q.in_ + 1) q.size
      count := q.count + 1 }, ?_, ?_⟩
  · unfold queue_push
    rw [if_neg (by omega), if_neg (by omega), if_neg (by omega)]
  · refine ⟨n, o, hn, hC, hsize, ?_, hout, ho, ?_, ?_, ?_, ?_⟩
    · simpa using hlen
    · simp [hcount]
    · simp; omega
    · simp only [hin, hsize, tmod_succ_cast, List.length_append, List.length_singleton]
      rw [Nat.mod_add_mod, Nat.add_assoc]
    · intro i hi
      simp only [hin, Int.toNat_ofNat]
      rw [List.getElem?_set]
      simp only [List.length_append, List.length_singleton] at hi
      by_cases hil : i < held.length
      · have hne : (o + held.length) % n ≠ (o + i) % n := by
          intro hEq
          have := mod_shift_inj o held.length i n hlt (by omega) hEq
          omega
        rw [if_neg hne, hbuf i hil, List.getElem_append_left hil]
      · have hie : i = held.length := by omega
        subst hie
        simp [hlen, hidx]

theorem inv_pop {α : Type} (C : Int) (q : queue_t α) (y : α) (rest : List α)
    (hinv : Inv C q (y :: rest)) :
    ∃ q1, queue_pop (some q) true = .ret (true, some (q1, some y)) ∧ Inv C q1 rest := by
  obtain ⟨n, o, hn, hC, hsize, hlen, hout, ho, hcount, hle, hin, hbuf⟩ := hinv
  simp only [List.length_cons] at hcount hle hin
  have h0 := hbuf 0 (by simp)
  simp only [Nat.add_zero, Nat.mod_eq_of_lt ho, List.getElem_cons_zero] at h0
  refine ⟨{ q with
      out := Int.tmod (q.out + 1) q.size
      count := q.count - 1 }, ?_, ?_⟩
  · simp only [queue_pop]
    rw [if_neg (by omega), if_neg (by omega), if_neg (by omega)]
    simp [hout, List.getD_eq_getElem?_getD, h0]
  · refine ⟨n, (o + 1) % n, hn, hC, hsize, hlen, ?_, Nat.mod_lt _ (by omega), ?_, by omega, ?_, ?_⟩
    · simp only [hout, hsize, tmod_succ_cast]
    · simp only [hcount]; push_cast; omega
    · simp only [hin]
      rw [Nat.mod_add_mod]
      congr 2
      omega
    · intro i hi
      have := hbuf (i + 1) (by simp; omega)
      simp only [List.getElem_cons_succ] at this
      rw [Nat.mod_add_mod, Nat.add_assoc, Nat.add_comm 1 i]
      exact this

theorem inv_count_pos {α : Type} (C : Int) (q : queue_t α) (held : List α)
    (hinv : Inv C q held) (hc : q.count > 0) : ∃ y rest, held = y :: rest := by
  obtain ⟨n, o, hn, hC, hsize, hlen, hout, ho, hcount, hle, hin, hbuf⟩ := hinv
  cases held with
  | nil => simp at hcount; omega
  | cons y rest => exact ⟨y, rest, rfl⟩

theorem run_fifo {α : Type} (C : Int) (ops : List (Op α)) :
    ∀ (q : queue_t α) (held : List α), Inv C q held → noBlock C held.length ops = true →
      ∃ t, run q ops = .ret t ∧ t.rets = List.replicate ops.length true ∧
        t.outs = ((held ++ pushed ops).take (pops ops)).map some ∧
        pops ops ≤ held.length + (pushed ops).length ∧
        Inv C t.q ((held ++ pushed ops).drop (pops ops)) := by
  induction ops with
  | nil =>
    intro q held hinv _
    exact ⟨_, rfl, rfl, by simp [pops], by simp [pops], by simpa [pops, pushed] using hinv⟩
  | cons op ops ih =>
    intro q held hinv hnb
    cases op with
    | push x =>
      simp only [noBlock, Bool.and_eq_true, decide_eq_true_eq] at hnb
      have hc : q.count < C := by
        obtain ⟨n, o, _, _, _, _, _, _, hcount, _⟩ := hinv
        omega
      obtain ⟨q1, hpush, hinv1⟩ := inv_push C q held x hinv hc
      have hnb1 : noBlock C (held ++ [x]).length ops = true := by
        simpa using hnb.2
      obtain ⟨t, hrun, hrets, houts, hle, hfin⟩ := ih q1 (held ++ [x]) hinv1 hnb1
      refine ⟨{ t with rets := true :: t.rets }, ?_, ?_, ?_, ?_, ?_⟩
      · simp only [run, hpush, hrun]
      · simp [hrets, List.replicate_succ]
      · simpa [pushed, pops] using houts
      · simp only [pushed, pops, List.length_cons]
        simp only [List.length_append, List.length_singleton] at hle
        omega
      · simpa [pushed, pops] using hfin
    | pop =>
      simp only [noBlock, Bool.and_eq_true, decide_eq_true_eq] at hnb
      obtain ⟨y, rest, rfl⟩ : ∃ y rest, held = y :: rest := by
        cases held with
        | nil => simp at hnb
        | cons y rest => exact ⟨y, rest, rfl⟩
      obtain ⟨q1, hpop, hinv1⟩ := inv_pop C q y rest hinv
      have hnb1 : noBlock C rest.length ops = true := by
        simpa using hnb.2
      obtain ⟨t, hrun, hrets, houts, hle, hfin⟩ := ih q1 rest hinv1 hnb1
      refine ⟨{ t with rets := true :: t.rets, outs := some y :: t.outs }, ?_, ?_, ?_, ?_, ?_⟩
      · simp only [run, hpop, hrun]
      · simp [hrets, List.replicate_succ]
      · simp [pushed, pops, houts]
      · simp only [pushed, pops, List.length_cons]
        omega
      · simpa [pushed, pops] using hfin

theorem reachable_inv {α : Type} (C : Int) (q : queue_t α) (h1 : 1 ≤ C) (hmax : C ≤ INT_MAX)
    (hr : Reachable C q) : ∃ held, Inv C q held := by
  induction hr with
  | new h q hq => exact ⟨[], inv_new h C q h1 hmax hq⟩
  | push q q1 x r _ hstep ih =>
    obtain ⟨held, hinv⟩ := ih
    have hsize : q.size = C := by
      obtain ⟨n, o, _, hC, hs, _⟩ := hinv
      rw [hs, hC]
    have hc : q.count < C := by
      unfold queue_push at hstep
      split at hstep
      · cases hstep
      · omega
    obtain ⟨q2, hpush, hinv2⟩ := inv_push C q held x hinv hc
    rw [hpush] at hstep
    cases hstep
    exact ⟨_, hinv2⟩
  | pop q q1 elem r v _ hstep ih =>
    obtain ⟨held, hinv⟩ := ih
    cases elem with
    | false => simp [queue_pop] at hstep
    | true =>
      have hc : q.count > 0 := by
        simp only [queue_pop] at hstep
        split at hstep
        · cases hstep
        · omega
      obtain ⟨y, rest, rfl⟩ := inv_count_pos C q held hinv hc
      obtain ⟨q2, hpop, hinv2⟩ := inv_pop C q y rest hinv
      rw [hpop] at hstep
      cases hstep
      exact ⟨_, hinv2⟩

theorem reachable_fields {α : Type} (C : Int) (q : queue_t α) (h1 : 1 ≤ C) (hmax : C ≤ INT_MAX)
    (hr : Reachable C q) :
    q.size = C ∧ (q.buffer.length : Int) = C ∧ 0 ≤ q.in_ ∧ q.in_ < C ∧ 0 ≤ q.out ∧ q.out < C := by
  obtain ⟨held, n, o, hn, hC, hsize, hlen, hout, ho, hcount, hle, hin, _⟩ :=
    reachable_inv C q h1 hmax hr
  have hidx : (o + held.length) % n < n := Nat.mod_lt _ (by omega)
  refine ⟨by omega, by omega, by omega, by omega, by omega, by omega⟩

theorem queue_push_progress {α : Type} (C : Int) (q : queue_t α) (x : α) (h1 : 1 ≤ C)
    (hmax : C ≤ INT_MAX) (hr : Reachable C q) (hc : q.count < C) :
    ∃ q1, queue_push q x = .ret (q1, true) ∧ q1.count = q.count + 1 := by
  obtain ⟨held, hinv⟩ := reachable_inv C q h1 hmax hr
  obtain ⟨q1, hpush, _⟩ := inv_push C q held x hinv hc
  refine ⟨q1, hpush, ?_⟩
  unfold queue_push at hpush
  split at hpush
  · cases hpush
  · split at hpush
    · cases hpush
    · split at hpush
      · cases hpush
      · cases hpush
        rfl

theorem queue_pop_progress {α : Type} (C : Int) (q : queue_t α) (h1 : 1 ≤ C)
    (hmax : C ≤ INT_MAX) (hr : Reachable C q) (hc : q.count > 0) :
    ∃ q1 y, queue_pop (some q) true = .ret (true, some (q1, some y)) := by
  obtain ⟨held, hinv⟩ := reachable_inv C q h1 hmax hr
  obtain ⟨y, rest, rfl⟩ := inv_count_pos C q held hinv hc
  obtain ⟨q1, hpop, _⟩ := inv_pop C q y rest hinv
  exact ⟨q1, y, hpop⟩

theorem queue_pop_null_elem {α : Type} (q : Option (queue_t α)) :
    queue_pop q false = .ret (false, none) := by
  cases q <;> rfl

theorem queue_pop_null_queue {α : Type} (elem : Bool) :
    queue_pop (none : Option (queue_t α)) elem = .ret (false, none) := by
  cases elem <;> rfl

theorem buffer_bytes_negative (size : Int) (hlo : -INT_MAX - 1 ≤ size) (hneg : size < 0) :
    2 ^ 64 - 2 ^ 34 ≤ buffer_bytes size := by
  simp only [buffer_bytes, sizeof_ptr, SIZE_MOD, INT_MAX] at *
  omega

theorem queue_new_nonpositive_push_blocks {α : Type} (h : Heap) (size : Int) (q : queue_t α)
    (x : α) (hs : size ≤ 0) (hq : queue_new h size = some q) : queue_push q x = .blocks := by
  unfold queue_new at hq
  split at hq
  · cases hq
  · split at hq
    · cases hq
    · cases hq
      simp [queue_push, hs]

/-- C1. On a queue built by `queue_new(C)` with `1 ≤ C` (`C` an `int`), every sequential
sequence of pushes and pops in which no call blocks (each push issued while fewer than `C`
elements are held, each pop while at least one is held, counted on the call sequence) runs to
its end: every call returns true, the values the pops store in `*elem` are, in order, the
elements passed to the first pushes, the k-th pop storing the element of the k-th push, and
the `count` field ends as the number of pushes minus the number of pops. -/
theorem queue_fifo {α : Type} (h : Heap) (C : Int) (q0 : queue_t α) (ops : List (Op α))
    (h1 : 1 ≤ C) (hmax : C ≤ INT_MAX) (hnew : queue_new h C = some q0)
    (hnb : noBlock C 0 ops = true) :
    ∃ t, run q0 ops = .ret t ∧ t.rets = List.replicate ops.length true ∧
      t.outs = ((pushed ops).take (pops ops)).map some ∧ pops ops ≤ (pushed ops).length ∧
      t.q.count = (((pushed ops).length - pops ops : Nat) : Int) := by
  obtain ⟨t, hrun, hrets, houts, hle, hfin⟩ :=
    run_fifo C ops q0 [] (inv_new h C q0 h1 hmax hnew) hnb
  refine ⟨t, hrun, hrets, by simpa using houts, by simpa using hle, ?_⟩
  obtain ⟨n, o, _, _, _, _, _, _, hcount, _⟩ := hfin
  simpa using hcount

/-- C1, at a concrete run: capacity 2, the calls push 5, push 6, pop, push 7, pop, pop. -/
theorem queue_fifo_witness :
    queue_new plentiful 2 = some q2 ∧ noBlock 2 0 ops6 = true ∧
      ∃ t, run q2 ops6 = .ret t ∧ t.rets = List.replicate ops6.length true ∧
        t.outs = ((pushed ops6).take (pops ops6)).map some ∧
        pops ops6 ≤ (pushed ops6).length ∧
        t.q.count = (((pushed ops6).length - pops ops6 : Nat) : Int) :=
  ⟨by decide, by decide,
   queue_fifo plentiful 2 q2 ops6 (by decide) (by decide) (by decide) (by decide)⟩

/-- C2. In every queue state reachable from `queue_new(C)` with `1 ≤ C` (`C` an `int`) by
completed pushes and pops, `0 ≤ count ≤ C`; a push completes only from a state with
`count < C` and a pop completes only from a state with `count > 0`. -/
theorem queue_count_bounds {α : Type} (C : Int) (q : queue_t α) (h1 : 1 ≤ C)
    (hmax : C ≤ INT_MAX) (hr : Reachable C q) :
    0 ≤ q.count ∧ q.count ≤ C ∧
      (∀ x q1 r, queue_push q x = .ret (q1, r) → q.count < C) ∧
      (∀ elem r q1 v, queue_pop (some q) elem = .ret (r, some (q1, v)) → q.count > 0) := by
  obtain ⟨held, n, o, hn, hC, hsize, hlen, hout, ho, hcount, hle, hin, _⟩ :=
    reachable_inv C q h1 hmax hr
  refine ⟨by omega, by omega, ?_, ?_⟩
  · intro x q1 r hstep
    unfold queue_push at hstep
    split at hstep
    · cases hstep
    · omega
  · intro elem r q1 v hstep
    cases elem with
    | false => simp [queue_pop] at hstep
    | true =>
      simp only [queue_pop] at hstep
      split at hstep
      · cases hstep
      · omega

/-- C2, at a concrete state: the queue of capacity 2 after one push. -/
theorem queue_count_bounds_witness :
    Reachable 2 q2_5 ∧ 0 ≤ q2_5.count ∧ q2_5.count ≤ 2 ∧
      (∀ x q1 r, queue_push q2_5 x = .ret (q1, r) → q2_5.count < 2) ∧
      (∀ elem r q1 v, queue_pop (some q2_5) elem = .ret (r, some (q1, v)) → q2_5.count > 0) :=
  ⟨Reachable.push q2 q2_5 5 true (Reachable.new plentiful q2 (by decide)) (by decide),
   queue_count_bounds 2 q2_5 (by decide) (by decide)
     (Reachable.push q2 q2_5 5 true (Reachable.new plentiful q2 (by decide)) (by decide))⟩

/-- C9, as claimed, fails: `queue_new(0)`, with a `malloc(0)` that returns a non-NULL pointer,
neither rejects the construction nor clamps the capacity to 1; it returns a queue whose stored
capacity is 0. -/
theorem queue_new_zero_capacity :
    ¬ ((queue_new plentiful 0 : Option (queue_t Nat)) = none ∨
        ∃ q : queue_t Nat, queue_new plentiful 0 = some q ∧ q.size = 1) ∧
      ∃ q : queue_t Nat, queue_new plentiful 0 = some q ∧ q.size ≤ 0 := by
  have h0 : (queue_new plentiful 0 : Option (queue_t Nat)) =
      some { in_ := 0, out := 0, size := 0, count := 0, buffer := [] } := by decide
  refine ⟨?_, ⟨_, h0, by decide⟩⟩
  rintro (h | ⟨q, hq, hs⟩)
  · rw [h0] at h
    cases h
  · rw [h0] at hq
    cases hq
    revert hs
    decide

/-- C9, amended. For every `size ≤ 0` (`size` an `int`), on a heap whose `malloc` refuses
requests of more than `PTRDIFF_MAX` bytes: for `size < 0`, `queue_new(size)` rejects the
construction (the assertion on the buffer aborts); for `size = 0` it either rejects the
construction, when a `malloc` returned NULL, or returns an empty queue whose stored capacity
is 0, not clamped to 1, and it returns that queue whenever both allocations succeed.  No queue
with a negative stored capacity is created. -/
theorem queue_new_nonpositive {α : Type} (h : Heap) (size : Int) (hlo : INT_MIN ≤ size)
    (hs : size ≤ 0) (hheap : ∀ n, PTRDIFF_MAX < n → h.malloc n = false) :
    (size < 0 → (queue_new h size : Option (queue_t α)) = none) ∧
      (size = 0 →
        ((queue_new h size : Option (queue_t α)) = none ∧
            (h.malloc sizeof_queue_t = false ∨ h.malloc 0 = false)) ∨
          (queue_new h size =
              some ({ in_ := 0, out := 0, size := 0, count := 0, buffer := [] } : queue_t α) ∧
            h.malloc sizeof_queue_t = true ∧ h.malloc 0 = true)) ∧
      (∀ q : queue_t α, queue_new h size = some q → q.size = 0) := by
  have hneg : size < 0 → (queue_new h size : Option (queue_t α)) = none := by
    intro hlt
    have hbig : PTRDIFF_MAX < buffer_bytes size := by
      have := buffer_bytes_negative size (by simp only [INT_MAX, INT_MIN] at *; omega) hlt
      simp only [PTRDIFF_MAX]
      omega
    unfold queue_new
    by_cases ha : h.malloc sizeof_queue_t = false
    · simp [ha]
    · simp [ha, hheap _ hbig]
  have hb0 : buffer_bytes 0 = 0 := by decide
  refine ⟨hneg, ?_, ?_⟩
  · intro h0
    subst h0
    unfold queue_new
    rw [hb0]
    by_cases ha : h.malloc sizeof_queue_t = false
    · left
      simp [ha]
    · by_cases hb : h.malloc 0 = false
      · left
        simp [hb]
      · right
        simp only [Bool.not_eq_false] at ha hb
        simp [ha, hb]
  · intro q hq
    have hcase : size < 0 ∨ size = 0 := by omega
    rcases hcase with hlt | h0
    · rw [hneg hlt] at hq
      cases hq
    · subst h0
      unfold queue_new at hq
      split at hq
      · cases hq
      · split at hq
        · cases hq
        · cases hq
          rfl

/-- C9, amended, at concrete inputs: `queue_new(-1)` and `queue_new(0)` on the heap that serves
exactly the requests of at most `PTRDIFF_MAX` bytes. -/
theorem queue_new_nonpositive_witness :
    (queue_new bounded (-1) : Option (queue_t Nat)) = none ∧
      (queue_new bounded 0 : Option (queue_t Nat)) =
        some { in_ := 0, out := 0, size := 0, count := 0, buffer := [] } := by
  have hheap : ∀ n, PTRDIFF_MAX < n → bounded.malloc n = false := by
    intro n hn
    simp only [bounded, decide_eq_false_iff_not]
    omega
  constructor
  · exact (@queue_new_nonpositive Nat bounded (-1) (by decide) (by decide) hheap).1 (by decide)
  · rcases (@queue_new_nonpositive Nat bounded 0 (by decide) (by decide) hheap).2.1 rfl with
      h | h
    · exact absurd h.2 (by decide)
    · exact h.1

/-! ### Request handlers -/

theorem responsesSent_append (s t : List Event) :
    responsesSent (s ++ t) = responsesSent s ++ responsesSent t := by
  induction s with
  | nil => rfl
  | cons e s ih => cases e <;> simp [responsesSent, ih]

theorem auditLines_append (s t : List Event) :
    auditLines (s ++ t) = auditLines s ++ auditLines t := by
  induction s with
  | nil => rfl
  | cons e s ih => cases e <;> simp [auditLines, ih]

theorem audit_log_eq (env : Env) (method : String) (res : Response_t) :
    audit_log env method res =
      [ .pthread_mutex_lock .audit,
        .fprintf_stderr
          (audit_line method env.uri (env.response_get_code res) (env.request_id.getD "0")),
        .pthread_mutex_unlock .audit ] := by
  cases h : env.request_id <;> simp [audit_log, audit_line, h]

theorem responsesSent_audit_log (env : Env) (method : String) (res : Response_t) :
    responsesSent (audit_log env method res) = [] := rfl

theorem auditLines_audit_log (env : Env) (method : String) (res : Response_t) :
    auditLines (audit_log env method res) =
      [audit_line method env.uri (env.response_get_code res) (env.request_id.getD "0")] := by
  rw [audit_log_eq]
  rfl

/-- C3. On a filesystem failure the response passed to `conn_send_response` is the one of the
failure table.  `handle_get`: a failing `open` gives FORBIDDEN for `EACCES`, NOT_FOUND for
`ENOENT` and INTERNAL_SERVER_ERROR for any other `errno`; a failing `fstat` gives
INTERNAL_SERVER_ERROR; a directory gives FORBIDDEN.  `handle_put`: a failing `open` gives
FORBIDDEN for `EACCES`, `ENOENT` and `EISDIR` and INTERNAL_SERVER_ERROR for any other
`errno`. -/
theorem failure_mapping (env : Env) :
    (env.fd < 0 → env.errno = EACCES →
      responsesSent (handle_get env) = [RESPONSE_FORBIDDEN]) ∧
    (env.fd < 0 → env.errno = ENOENT →
      responsesSent (handle_get env) = [RESPONSE_NOT_FOUND]) ∧
    (env.fd < 0 → env.errno ≠ EACCES → env.errno ≠ ENOENT →
      responsesSent (handle_get env) = [RESPONSE_INTERNAL_SERVER_ERROR]) ∧
    (0 ≤ env.fd → env.fstat < 0 →
      responsesSent (handle_get env) = [RESPONSE_INTERNAL_SERVER_ERROR]) ∧
    (0 ≤ env.fd → 0 ≤ env.fstat → S_ISDIR env.st_mode = true →
      responsesSent (handle_get env) = [RESPONSE_FORBIDDEN]) ∧
    (env.fd < 0 → env.errno = EACCES ∨ env.errno = ENOENT ∨ env.errno = EISDIR →
      responsesSent (handle_put env) = [RESPONSE_FORBIDDEN]) ∧
    (env.fd < 0 → env.errno ≠ EACCES → env.errno ≠ ENOENT → env.errno ≠ EISDIR →
      responsesSent (handle_put env) = [RESPONSE_INTERNAL_SERVER_ERROR]) := by
  refine ⟨?_, ?_, ?_, ?_, ?_, ?_, ?_⟩
  · intro hfd he
    simp [handle_get, out_get, responsesSent, responsesSent_append, responsesSent_audit_log,
      hfd, he]
  · intro hfd he
    have hne : ENOENT ≠ EACCES := by decide
    simp [handle_get, out_get, responsesSent, responsesSent_append, responsesSent_audit_log,
      hfd, he, hne]
  · intro hfd h1 h2
    simp [handle_get, out_get, responsesSent, responsesSent_append, responsesSent_audit_log,
      hfd, h1, h2]
  · intro hfd hst
    have hfd1 : ¬ env.fd < 0 := by omega
    simp [handle_get, out_get, responsesSent, responsesSent_append, responsesSent_audit_log,
      hfd1, hst]
  · intro hfd hst hdir
    have hfd1 : ¬ env.fd < 0 := by omega
    have hst1 : ¬ env.fstat < 0 := by omega
    simp [handle_get, out_get, responsesSent, responsesSent_append, responsesSent_audit_log,
      hfd1, hst1, hdir]
  · intro hfd he
    have he1 : env.errno = EACCES ∨ env.errno = EISDIR ∨ env.errno = ENOENT := by tauto
    simp [handle_put, out_put, responsesSent, responsesSent_append, responsesSent_audit_log,
      hfd, he1]
  · intro hfd h1 h2 h3
    simp [handle_put, out_put, responsesSent, responsesSent_append, responsesSent_audit_log,
      hfd, h1, h2, h3]

/-- C3, at concrete executions: `open` fails with `EACCES`, `ENOENT` and `EIO` (5) in
`handle_get`; `fstat` fails; the path is a directory; `open` fails with `EISDIR` and with
`ENOSPC` (28) in `handle_put`. -/
theorem failure_mapping_witness :
    responsesSent (handle_get { env0 with fd := -1, errno := EACCES }) = [RESPONSE_FORBIDDEN] ∧
    responsesSent (handle_get { env0 with fd := -1, errno := ENOENT }) = [RESPONSE_NOT_FOUND] ∧
    responsesSent (handle_get { env0 with fd := -1, errno := 5 }) =
      [RESPONSE_INTERNAL_SERVER_ERROR] ∧
    responsesSent (handle_get { env0 with fstat := -1 }) = [RESPONSE_INTERNAL_SERVER_ERROR] ∧
    responsesSent (handle_get { env0 with st_mode := 0o040755 }) = [RESPONSE_FORBIDDEN] ∧
    responsesSent (handle_put { env0 with fd := -1, errno := EISDIR }) = [RESPONSE_FORBIDDEN] ∧
    responsesSent (handle_put { env0 with fd := -1, errno := 28 }) =
      [RESPONSE_INTERNAL_SERVER_ERROR] :=
  ⟨(failure_mapping { env0 with fd := -1, errno := EACCES }).1 (by decide) (by decide),
   (failure_mapping { env0 with fd := -1, errno := ENOENT }).2.1 (by decide) (by decide),
   (failure_mapping { env0 with fd := -1, errno := 5 }).2.2.1 (by decide) (by decide)
     (by decide),
   (failure_mapping { env0 with fstat := -1 }).2.2.2.1 (by decide) (by decide),
   (failure_mapping { env0 with st_mode := 0o040755 }).2.2.2.2.1 (by decide) (by decide)
     (by decide),
   (failure_mapping { env0 with fd := -1, errno := EISDIR }).2.2.2.2.2.1 (by decide)
     (by decide),
   (failure_mapping { env0 with fd := -1, errno := 28 }).2.2.2.2.2.2 (by decide) (by decide)
     (by decide) (by decide)⟩

/-- C4. When `open` succeeds in `handle_put`, the existence check `access(uri, F_OK)` is made
before the `open`, the body is received by `conn_recv_file` into the opened descriptor, and
the one response sent, after that transfer, is CREATED if the path did not exist at the check
and `conn_recv_file` returned no error, OK if it existed and `conn_recv_file` returned no
error, and otherwise the error response `conn_recv_file` returned. -/
theorem put_response (env : Env) (hfd : 0 ≤ env.fd) :
    (handle_put env).filter (fun e => isFileOp e || isResponse e) =
        [ .access env.uri F_OK, .open_ env.uri (O_CREAT ||| O_WRONLY) 0o600,
          .flock env.fd LOCK_EX, .ftruncate env.fd 0,
          .conn_recv_file env.fd env.conn_recv_file, .close env.fd,
          .conn_send_response
            (match env.conn_recv_file with
             | some r => r
             | none => if env.access = 0 then RESPONSE_OK else RESPONSE_CREATED) ] ∧
      (env.access ≠ 0 → env.conn_recv_file = none →
        responsesSent (handle_put env) = [RESPONSE_CREATED]) ∧
      (env.access = 0 → env.conn_recv_file = none →
        responsesSent (handle_put env) = [RESPONSE_OK]) ∧
      (∀ r, env.conn_recv_file = some r → responsesSent (handle_put env) = [r]) := by
  have hfd1 : ¬ env.fd < 0 := by omega
  refine ⟨?_, ?_, ?_, ?_⟩
  · cases hr : env.conn_recv_file with
    | some r =>
      simp [handle_put, audit_log, hfd1, hr, List.filter, isFileOp, isResponse]
    | none =>
      by_cases ha : env.access = 0
      · simp [handle_put, audit_log, hfd1, hr, ha, List.filter, isFileOp, isResponse]
      · have hb : (env.access == 0) = false := by simpa using ha
        simp [handle_put, audit_log, hfd1, hr, ha, hb, List.filter, isFileOp, isResponse]
  · intro ha hr
    have hb : (env.access == 0) = false := by simpa using ha
    simp [handle_put, responsesSent, responsesSent_append, responsesSent_audit_log, hfd1, hb,
      hr]
  · intro ha hr
    have hb : (env.access == 0) = true := by simpa using ha
    simp [handle_put, responsesSent, responsesSent_append, responsesSent_audit_log, hfd1, hb,
      hr]
  · intro r hr
    simp [handle_put, responsesSent, responsesSent_append, responsesSent_audit_log, hfd1, hr]

/-- C4, at concrete executions: a new path, an existing path, and a transfer that fails with
BAD_REQUEST. -/
theorem put_response_witness :
    ((handle_put env0).filter (fun e => isFileOp e || isResponse e) =
        [ .access "/a.txt" F_OK, .open_ "/a.txt" (O_CREAT ||| O_WRONLY) 0o600,
          .flock 4 LOCK_EX, .ftruncate 4 0, .conn_recv_file 4 none, .close 4,
          .conn_send_response RESPONSE_CREATED ]) ∧
    responsesSent (handle_put env0) = [RESPONSE_CREATED] ∧
    responsesSent (handle_put { env0 with access := 0 }) = [RESPONSE_OK] ∧
    responsesSent (handle_put { env0 with conn_recv_file := some RESPONSE_BAD_REQUEST }) =
      [RESPONSE_BAD_REQUEST] :=
  ⟨(put_response env0 (by decide)).1,
   (put_response env0 (by decide)).2.1 (by decide) rfl,
   (put_response { env0 with access := 0 } (by decide)).2.2.1 rfl rfl,
   (put_response { env0 with conn_recv_file := some RESPONSE_BAD_REQUEST } (by decide)).2.2.2
     RESPONSE_BAD_REQUEST rfl⟩

theorem put_audit_line (env : Env) :
    auditLines (handle_put env) =
      [audit_line "PUT" env.uri (env.response_get_code RESPONSE_OK)
        (env.request_id.getD "0")] := by
  by_cases hfd : env.fd < 0
  · by_cases he : env.errno = EACCES ∨ env.errno = EISDIR ∨ env.errno = ENOENT
    · simp [handle_put, out_put, hfd, he, audit_log_eq, auditLines]
    · simp [handle_put, out_put, hfd, he, audit_log_eq, auditLines]
  · simp [handle_put, hfd, audit_log_eq, auditLines]

theorem get_send_file_error (env : Env) (r : Response_t) (hfd : 0 ≤ env.fd)
    (hst : 0 ≤ env.fstat) (hdir : S_ISDIR env.st_mode = false)
    (hsend : env.conn_send_file = some r) :
    auditLines (handle_get env) = [] ∧ responsesSent (handle_get env) = [] ∧
      delivered (handle_get env) = 0 := by
  have hfd1 : ¬ env.fd < 0 := by omega
  have hst1 : ¬ env.fstat < 0 := by omega
  simp [handle_get, hfd1, hst1, hdir, hsend, auditLines, responsesSent, delivered]

theorem get_send_file_ok (env : Env) (hfd : 0 ≤ env.fd) (hst : 0 ≤ env.fstat)
    (hdir : S_ISDIR env.st_mode = false) (hsend : env.conn_send_file = none) :
    auditLines (handle_get env) =
        [audit_line "GET" env.uri (env.response_get_code RESPONSE_OK)
          (env.request_id.getD "0")] ∧
      responsesSent (handle_get env) = [] ∧ delivered (handle_get env) = 1 := by
  have hfd1 : ¬ env.fd < 0 := by omega
  have hst1 : ¬ env.fstat < 0 := by omega
  refine ⟨?_, ?_, ?_⟩
  · simp [handle_get, hfd1, hst1, hdir, hsend, auditLines, audit_log_eq]
  · simp [handle_get, hfd1, hst1, hdir, hsend, responsesSent, responsesSent_append,
      responsesSent_audit_log]
  · simp [handle_get, hfd1, hst1, hdir, hsend, delivered, audit_log]

theorem get_failure_audit (env : Env)
    (h : env.fd < 0 ∨ env.fstat < 0 ∨ S_ISDIR env.st_mode = true) :
    ∃ r, responsesSent (handle_get env) = [r] ∧
      auditLines (handle_get env) =
        [audit_line "GET" env.uri (env.response_get_code r) (env.request_id.getD "0")] ∧
      delivered (handle_get env) = 1 := by
  have key : ∀ r, responsesSent (out_get env r) = [r] ∧
      auditLines (out_get env r) =
        [audit_line "GET" env.uri (env.response_get_code r) (env.request_id.getD "0")] ∧
      delivered (out_get env r) = 1 := by
    intro r
    refine ⟨?_, ?_, ?_⟩
    · simp [out_get, responsesSent, responsesSent_append, responsesSent_audit_log]
    · rw [out_get, audit_log_eq]
      rfl
    · simp [out_get, audit_log_eq, delivered]
  by_cases hfd : env.fd < 0
  · refine ⟨if env.errno = EACCES then RESPONSE_FORBIDDEN
      else if env.errno = ENOENT then RESPONSE_NOT_FOUND
      else RESPONSE_INTERNAL_SERVER_ERROR, ?_⟩
    simp only [handle_get, if_pos hfd]
    simpa [responsesSent, auditLines, delivered] using key _
  · by_cases hst : env.fstat < 0
    · refine ⟨RESPONSE_INTERNAL_SERVER_ERROR, ?_⟩
      simp only [handle_get, if_neg hfd, if_pos hst]
      simpa [responsesSent, auditLines, delivered] using key _
    · have hdir : S_ISDIR env.st_mode = true := by tauto
      refine ⟨RESPONSE_FORBIDDEN, ?_⟩
      simp only [handle_get, if_neg hfd, if_neg hst, hdir, if_true]
      simpa [responsesSent, auditLines, delivered] using key _

theorem put_delivers_once (env : Env) : delivered (handle_put env) = 1 := by
  by_cases hfd : env.fd < 0
  · by_cases he : env.errno = EACCES ∨ env.errno = EISDIR ∨ env.errno = ENOENT
    · simp [handle_put, out_put, hfd, he, audit_log_eq, delivered]
    · simp [handle_put, out_put, hfd, he, audit_log_eq, delivered]
  · simp [handle_put, hfd, audit_log_eq, delivered]

theorem unsupported_delivers_once (env : Env) (req : Request_t) :
    delivered (handle_unsupported env req) = 1 := by
  simp [handle_unsupported, delivered, audit_log]

theorem get_locks_before_reading (env : Env) (hfd : 0 ≤ env.fd) (hst : 0 ≤ env.fstat)
    (hdir : S_ISDIR env.st_mode = false) :
    (handle_get env).filter isFileOp =
      [ .open_ env.uri O_RDONLY 0o666, .flock env.fd LOCK_SH, .fstat env.fd,
        .conn_send_file env.fd env.st_size env.conn_send_file, .close env.fd ] := by
  have hfd1 : ¬ env.fd < 0 := by omega
  have hst1 : ¬ env.fstat < 0 := by omega
  cases hsend : env.conn_send_file <;>
    simp [handle_get, audit_log, hfd1, hst1, hdir, hsend, List.filter, isFileOp]

/-- C5. The audit line of a PUT that creates a file: the client is sent CREATED, the line
written carries the code of OK.  (`env0`: `PUT /a.txt`, no `Request-Id`, the path did not
exist, `open` and `conn_recv_file` succeed.)  The line the claim asks for is the one with the
code of CREATED.  A GET whose `conn_send_file` fails writes no line at all. -/
theorem put_created_audit_line :
    responsesSent (handle_put env0) = [RESPONSE_CREATED] ∧
    auditLines (handle_put env0) = ["PUT,/a.txt,200,0\n"] ∧
    audit_line "PUT" "/a.txt" (env0.response_get_code RESPONSE_CREATED) "0" =
      "PUT,/a.txt,201,0\n" ∧
    auditLines
      (handle_get { env0 with conn_send_file := some RESPONSE_INTERNAL_SERVER_ERROR }) = [] := by
  decide

/-- C6. A GET on a regular file whose `conn_send_file` returns an error: `handle_get` makes
no call of `conn_send_response` and the only `conn_send_file` call failed, so no response is
delivered. -/
theorem get_failed_transfer_delivers_nothing :
    delivered (handle_get { env0 with conn_send_file := some RESPONSE_INTERNAL_SERVER_ERROR }) = 0 ∧
    responsesSent
      (handle_get { env0 with conn_send_file := some RESPONSE_INTERNAL_SERVER_ERROR }) = [] := by
  decide

/-- C8. A parsed request whose method is neither GET nor PUT is dispatched to
`handle_unsupported`: NOT_IMPLEMENTED is the one response sent, the one audit line carries the
string `request_get_str` gives for the request and the code of NOT_IMPLEMENTED, and no effect
of the whole connection is a file operation. -/
theorem unsupported_dispatch (env : Env) (connfd : Int) (hparse : env.conn_parse = none)
    (hget : env.conn_get_request ≠ REQUEST_GET) (hput : env.conn_get_request ≠ REQUEST_PUT) :
    handle_connection env connfd =
        [.conn_new connfd, .conn_parse] ++ handle_unsupported env env.conn_get_request ++
          [.conn_delete] ∧
      responsesSent (handle_connection env connfd) = [RESPONSE_NOT_IMPLEMENTED] ∧
      auditLines (handle_connection env connfd) =
        [audit_line (env.request_get_str env.conn_get_request) env.uri
          (env.response_get_code RESPONSE_NOT_IMPLEMENTED) (env.request_id.getD "0")] ∧
      ∀ e ∈ handle_connection env connfd, isFileOp e = false := by
  have hdisp : handle_connection env connfd =
      [.conn_new connfd, .conn_parse] ++ handle_unsupported env env.conn_get_request ++
        [.conn_delete] := by
    simp [handle_connection, hparse, hget, hput]
  refine ⟨hdisp, ?_, ?_, ?_⟩
  · rw [hdisp]
    simp [handle_unsupported, responsesSent, responsesSent_append, responsesSent_audit_log]
  · rw [hdisp]
    rw [handle_unsupported, audit_log_eq]
    rfl
  · rw [hdisp]
    intro e he
    simp only [handle_unsupported, audit_log, List.cons_append, List.nil_append,
      List.mem_cons, List.mem_singleton, List.not_mem_nil, or_false] at he
    rcases he with h | h | h | h | h | h | h <;> subst h <;> rfl

/-- C8, at a concrete execution: a DELETE request for `/a.txt` on connection 9. -/
theorem unsupported_dispatch_witness :
    responsesSent (handle_connection { env0 with conn_get_request := REQUEST_OTHER 0 } 9) =
        [RESPONSE_NOT_IMPLEMENTED] ∧
      auditLines (handle_connection { env0 with conn_get_request := REQUEST_OTHER 0 } 9) =
        ["DELETE,/a.txt,501,0\n"] :=
  ⟨(unsupported_dispatch { env0 with conn_get_request := REQUEST_OTHER 0 } 9 rfl (by decide)
      (by decide)).2.1,
   (unsupported_dispatch { env0 with conn_get_request := REQUEST_OTHER 0 } 9 rfl (by decide)
      (by decide)).2.2.1⟩

/-- C10, as claimed, fails: in a PUT whose `open` succeeds the exclusive lock is taken before
the file is truncated, not after. -/
theorem put_order_not_as_claimed :
    (handle_put env0).filter isPutSync ≠ spec_put_order "/a.txt" 4 none ∧
    (handle_put env0).filter isPutSync =
      [ .pthread_mutex_lock .plock, .open_ "/a.txt" (O_CREAT ||| O_WRONLY) 0o600,
        .flock 4 LOCK_EX, .ftruncate 4 0, .pthread_mutex_unlock .plock,
        .conn_recv_file 4 none ] := by
  decide

/-- C10, amended. When `open` succeeds, `handle_put` acquires the PUT mutex, opens the path
write-only with create-if-absent, takes the exclusive advisory lock on the descriptor,
truncates the file to length 0 and only then releases the mutex, before the body is received;
when `open` fails the mutex is released once, with no truncation and no advisory lock. -/
theorem put_sync_order (env : Env) :
    (0 ≤ env.fd →
      (handle_put env).filter isPutSync =
        [ .pthread_mutex_lock .plock, .open_ env.uri (O_CREAT ||| O_WRONLY) 0o600,
          .flock env.fd LOCK_EX, .ftruncate env.fd 0, .pthread_mutex_unlock .plock,
          .conn_recv_file env.fd env.conn_recv_file ]) ∧
    (env.fd < 0 →
      (handle_put env).filter isPutSync =
        [ .pthread_mutex_lock .plock, .open_ env.uri (O_CREAT ||| O_WRONLY) 0o600,
          .pthread_mutex_unlock .plock ]) := by
  constructor
  · intro hfd
    have hfd1 : ¬ env.fd < 0 := by omega
    simp [handle_put, audit_log, hfd1, List.filter, isPutSync]
  · intro hfd
    by_cases he : env.errno = EACCES ∨ env.errno = EISDIR ∨ env.errno = ENOENT
    · simp [handle_put, out_put, audit_log, hfd, he, List.filter, isPutSync]
    · simp [handle_put, out_put, audit_log, hfd, he, List.filter, isPutSync]

/-- C10, amended, at concrete executions: `open` returns descriptor 4, and `open` fails with
`EACCES`. -/
theorem put_sync_order_witness :
    (handle_put env0).filter isPutSync =
        [ .pthread_mutex_lock .plock, .open_ "/a.txt" (O_CREAT ||| O_WRONLY) 0o600,
          .flock 4 LOCK_EX, .ftruncate 4 0, .pthread_mutex_unlock .plock,
          .conn_recv_file 4 none ] ∧
      (handle_put { env0 with fd := -1, errno := EACCES }).filter isPutSync =
        [ .pthread_mutex_lock .plock, .open_ "/a.txt" (O_CREAT ||| O_WRONLY) 0o600,
          .pthread_mutex_unlock .plock ] :=
  ⟨(put_sync_order env0).1 (by decide),
   (put_sync_order { env0 with fd := -1, errno := EACCES }).2 (by decide)⟩

end HttpServer
